import Mathlib

/-!
Verification development for the image data-augmentation module `daug.py` of the
LISA_lights_dataset repository.

The module works on numpy pixel arrays of shape (H, W) (grayscale) or (H, W, 3)
(color).  We embed a rank-3 array as a structure holding its height, width and a
pixel function (row, column, channel) -> rational sample value; a rank-2 array is
the same without the channel axis.  Rationals model Python numeric samples
exactly on every input the development evaluates (integer pixel data, halves and
quarters arising from the zoom window arithmetic).

Fallible Python behavior is made explicit: `isinstance` with a non-type second
argument raises TypeError, and numpy integer indexing outside [-n, n) raises
IndexError, so the corresponding embedded operations return `Except PyErr`.
-/

namespace Daug

/-- Python exceptions that the embedded module can raise. -/
inductive PyErr where
  | typeError
  | indexError
  deriving DecidableEq, Repr

/-- A rank-2 (grayscale) numpy array: shape (H, W), addressed row-major. -/
structure Gray where
  H : Nat
  W : Nat
  pix : Nat → Nat → ℚ

/-- A rank-3 (color, channel-last) numpy array: shape (H, W, 3).  `pix r c ch`
is the sample at row `r`, column `c`, channel `ch`; only `r < H`, `c < W`,
`ch < 3` are meaningful. -/
structure Image where
  H : Nat
  W : Nat
  pix : Nat → Nat → Nat → ℚ

/-- Extensional equality of rank-3 arrays: equal shape and equal samples at
every in-bounds index (ch ranges over the 3 channels). -/
def Image.eqv (a b : Image) : Prop :=
  a.H = b.H ∧ a.W = b.W ∧
    ∀ r, r < a.H → ∀ c, c < a.W → ∀ ch, ch < 3 → a.pix r c ch = b.pix r c ch

/-- np.dstack([g, g, g]) on a rank-2 array: the single channel replicated three
times along a new last axis. -/
def dstack (g : Gray) : Image :=
  ⟨g.H, g.W, fun r c _ => g.pix r c⟩

/-- An input value accepted by the module: a rank-2 or rank-3 numpy array (or an
array-like already converted); ranks other than 2 and 3 are outside the claims'
domain and are not modelled. -/
inductive NpLike where
  | gray (g : Gray)
  | rgb (im : Image)

/-- Whether `np.array` (the second argument of the isinstance call in
`_force_RGB_array`) is a type: it is not — it is a builtin function
(`numpy.array` is `builtin_function_or_method`, the array constructor;
the array type is `np.ndarray`). -/
def np_array_is_a_type : Bool := false

/-- Python `isinstance(obj, classinfo)`: when `classinfo` is not a type (nor a
tuple of types) the call itself raises
`TypeError: isinstance() arg 2 must be a type ...`, whatever `obj` is;
otherwise it returns whether `obj` is an instance. -/
def pyIsinstance (classinfoIsType : Bool) (objIsInstance : Bool) : Except PyErr Bool :=
  if classinfoIsType then .ok objIsInstance else .error .typeError

/-- Every modelled input is already a numpy array. -/
def isNdarrayB : NpLike → Bool := fun _ => true

/-- np.array applied to an array or array-like yields an equivalent array; the
modelled inputs already are arrays, so the conversion is the identity. -/
def npArrayOf : NpLike → NpLike := id

/-- The rank dispatch of `_force_RGB_array` on an ndarray input, i.e. the code
past the isinstance guard: a rank-3 array is returned unchanged, a rank-2 array
is dstacked into (H, W, 3).  (For any other rank the Python function falls off
the end and returns None; such inputs are outside the modelled domain.)
The spec's `force_rgb` normalization refers to these semantics. -/
def force_RGB_of_array : NpLike → Image
  | .rgb im => im
  | .gray g => dstack g

/-- `_force_RGB_array(img)` as written in the source: first evaluates
`isinstance(img, np.array)` (which raises TypeError, `np.array` being a
function, not a type), then would convert and dispatch on rank. -/
def force_RGB_array (v : NpLike) : Except PyErr Image := do
  let isArr ← pyIsinstance np_array_is_a_type (isNdarrayB v)
  let a := if isArr then v else npArrayOf v
  pure (force_RGB_of_array a)

/-! ### numpy primitives used by the transforms -/

/-- np.rot90(m, k) on the (row, column) plane of a rank-3 array, channels
untouched.  k is taken mod 4; k = 1 rotates counter-clockwise (the direction
from axis 0 towards axis 1), k = 2 rotates 180 degrees, k = 3 (hence k = -1)
rotates clockwise. -/
def npRot90 (im : Image) (k : Int) : Image :=
  match (k.emod 4).toNat with
  | 1 => ⟨im.W, im.H, fun r c ch => im.pix c (im.W - 1 - r) ch⟩
  | 2 => ⟨im.H, im.W, fun r c ch => im.pix (im.H - 1 - r) (im.W - 1 - c) ch⟩
  | 3 => ⟨im.W, im.H, fun r c ch => im.pix (im.H - 1 - c) r ch⟩
  | _ => im

/-- np.flipud: reverse the row order. -/
def flipud (im : Image) : Image :=
  ⟨im.H, im.W, fun r c ch => im.pix (im.H - 1 - r) c ch⟩

/-- np.fliplr: reverse the column order. -/
def fliplr (im : Image) : Image :=
  ⟨im.H, im.W, fun r c ch => im.pix r (im.W - 1 - c) ch⟩

/-- np.roll(im, s, axis=0): circular shift of the rows; element i of the result
is element (i - s) mod H of the input. -/
def roll0 (im : Image) (s : Int) : Image :=
  ⟨im.H, im.W, fun r c ch => im.pix (((r : Int) - s).emod im.H).toNat c ch⟩

/-- np.roll(im, s, axis=1): circular shift of the columns. -/
def roll1 (im : Image) (s : Int) : Image :=
  ⟨im.H, im.W, fun r c ch => im.pix r (((c : Int) - s).emod im.W).toNat ch⟩

/-- Python `int()` on a real value: truncation toward zero. -/
def pyInt (q : ℚ) : Int :=
  if 0 ≤ q then ⌊q⌋ else ⌈q⌉

/-- Effective endpoint of a Python slice index on an axis of length n:
negative indices count from the end, then the value is clamped into [0, n]. -/
def sliceIdx (n : Nat) (a : Int) : Nat :=
  if a < 0 then (a + n).toNat else min a.toNat n

/-- The basic slice `im[r0:r1, c0:c1, :]` with Python slice semantics on both
axes (step 1). -/
def slice2 (im : Image) (r0 r1 c0 c1 : Int) : Image :=
  let rs := sliceIdx im.H r0
  let re := sliceIdx im.H r1
  let cs := sliceIdx im.W c0
  let ce := sliceIdx im.W c1
  ⟨re - rs, ce - cs, fun r c ch => im.pix (rs + r) (cs + c) ch⟩

/-- numpy basic integer indexing on an axis of length n: indices in [0, n) are
direct, indices in [-n, 0) count from the end, anything else raises
IndexError. -/
def npIndex (n : Nat) (i : Int) : Except PyErr Nat :=
  if 0 ≤ i ∧ i < (n : Int) then .ok i.toNat
  else if -(n : Int) ≤ i ∧ i < 0 then .ok (i + n).toNat
  else .error .indexError

/-- The statement `im[dst, :, :] = im[src, :, :]`: read the source row (its
index is resolved first, as the right-hand side is evaluated first), then
overwrite the destination row with it. -/
def setRowFrom (im : Image) (dst src : Int) : Except PyErr Image := do
  let s ← npIndex im.H src
  let d ← npIndex im.H dst
  pure ⟨im.H, im.W, fun r c ch => if r = d then im.pix s c ch else im.pix r c ch⟩

/-- The statement `im[:, dst, :] = im[:, src, :]`. -/
def setColFrom (im : Image) (dst src : Int) : Except PyErr Image := do
  let s ← npIndex im.W src
  let d ← npIndex im.W dst
  pure ⟨im.H, im.W, fun r c ch => if c = d then im.pix r s ch else im.pix r c ch⟩

/-- A sequence of row assignments `im[d, :, :] = im[p, :, :]`, executed in list
order on the successively updated array. -/
def rowAssignLoop (im : Image) : List (Int × Int) → Except PyErr Image
  | [] => pure im
  | (d, s) :: rest => do
      let im' ← setRowFrom im d s
      rowAssignLoop im' rest

/-- A sequence of column assignments `im[:, d, :] = im[:, p, :]`. -/
def colAssignLoop (im : Image) : List (Int × Int) → Except PyErr Image
  | [] => pure im
  | (d, s) :: rest => do
      let im' ← setColFrom im d s
      colAssignLoop im' rest

/-! ### Transform bodies on a normalized array

Each `*_core` is the body of the corresponding public function after the
`img = _force_RGB_array(img)` line, acting on the normalized rank-3 array. -/

/-- Body of `rot90`: `k = -1 if ccw else 1; np.rot90(img, k)`. -/
def rot90_core (im : Image) (ccw : Bool) : Image :=
  let k : Int := if ccw then -1 else 1
  npRot90 im k

/-- Body of `flipv`: np.flipud. -/
def flipv_core (im : Image) : Image := flipud im

/-- Body of `fliph`: np.fliplr. -/
def fliph_core (im : Image) : Image := fliplr im

/-- Body of `rolldown`: `px = int(px); np.roll(img, px, axis=0)` (the argument
is already an integer in the modelled calls, so int() is the identity). -/
def rolldown_core (im : Image) (px : Int) : Image := roll0 im px

/-- Body of `rollright`: np.roll along axis 1. -/
def rollright_core (im : Image) (px : Int) : Image := roll1 im px

/-- The chain of four `if` statements normalizing the zoom factor pair, in
source order: `fac[0] > 1`, `fac[1] > 1`, `fac[0] <= 0`, `fac[1] <= 0`. -/
def facNorm (p : ℚ × ℚ) : ℚ × ℚ :=
  let p := if 1 < p.1 then ((1 : ℚ), p.2) else p
  let p := if 1 < p.2 then (p.1, (1 : ℚ)) else p
  let p := if p.1 ≤ 0 then ((1 / 2 : ℚ), p.2) else p
  let p := if p.2 ≤ 0 then (p.1, (1 / 2 : ℚ)) else p
  p

/-- The centered window of `zoom` for an already-normalized factor pair:
`bounds_h = [int(h/2 - h*(fac0/2)), int(h/2 + h*(fac0/2))]` (and the analogue
for the width) followed by the slice. -/
def zoomWindow (im : Image) (p : ℚ × ℚ) : Image :=
  let h := im.H
  let w := im.W
  let bh0 := pyInt ((h : ℚ) / 2 - (h : ℚ) * (p.1 / 2))
  let bh1 := pyInt ((h : ℚ) / 2 + (h : ℚ) * (p.1 / 2))
  let bw0 := pyInt ((w : ℚ) / 2 - (w : ℚ) * (p.2 / 2))
  let bw1 := pyInt ((w : ℚ) / 2 + (w : ℚ) * (p.2 / 2))
  slice2 im bh0 bh1 bw0 bw1

/-- Body of `zoom` for a factor already in pair form. -/
def zoom_core (im : Image) (p : ℚ × ℚ) : Image :=
  zoomWindow im (facNorm p)

/-- Body of `zoom` for a scalar factor: `fac = (fac, fac)` (the isinstance
tuple/list test failing), then the pair path. -/
def zoomS_core (im : Image) (f : ℚ) : Image :=
  zoom_core im (f, f)

/-- Body of `crop`: `img[bounds[0][0]:bounds[0][1], bounds[1][0]:bounds[1][1], :]`
— the first pair of `bounds` indexes the row range, the second the column
range. -/
def crop_core (im : Image) (bounds : (Int × Int) × (Int × Int)) : Image :=
  slice2 im bounds.1.1 bounds.1.2 bounds.2.1 bounds.2.2

/-- Body of `noisy`: `noise = np.random.uniform(size=img.shape) * 255;
img + noise * amt`, with the drawn uniform array passed explicitly as `noise`
(the process-wide random source made an argument). -/
def noisy_core (im : Image) (noise : Nat → Nat → Nat → ℚ) (amt : ℚ) : Image :=
  ⟨im.H, im.W, fun r c ch => im.pix r c ch + noise r c ch * 255 * amt⟩

/-- Body of `mirrorleft`: `flipclone = np.fliplr(img); bnd = W // 2;
img[:, bnd:, :] = flipclone[:, bnd:, :]` — the resulting array value (columns
from `bnd` on taken from the flipped copy). -/
def mirrorleft_core (im : Image) : Image :=
  let flipclone := fliplr im
  let bnd := im.W / 2
  ⟨im.H, im.W, fun r c ch => if bnd ≤ c then flipclone.pix r c ch else im.pix r c ch⟩

/-- Body of `mirrorright`: `img[:, :bnd, :] = flipclone[:, :bnd, :]`. -/
def mirrorright_core (im : Image) : Image :=
  let flipclone := fliplr im
  let bnd := im.W / 2
  ⟨im.H, im.W, fun r c ch => if c < bnd then flipclone.pix r c ch else im.pix r c ch⟩

/-- Body of `mirrorup`: `flipclone = np.flipud(img); bnd = H // 2;
img[bnd:, :, :] = flipclone[bnd:, :, :]`. -/
def mirrorup_core (im : Image) : Image :=
  let flipclone := flipud im
  let bnd := im.H / 2
  ⟨im.H, im.W, fun r c ch => if bnd ≤ r then flipclone.pix r c ch else im.pix r c ch⟩

/-- Body of `mirrordown`: `img[:bnd, :, :] = flipclone[:bnd, :, :]`. -/
def mirrordown_core (im : Image) : Image :=
  let flipclone := flipud im
  let bnd := im.H / 2
  ⟨im.H, im.W, fun r c ch => if r < bnd then flipclone.pix r c ch else im.pix r c ch⟩

/-- Body of `shiftdown`: `px = abs(px)`, roll down by px, then
`for i in range(px): img[i, :, :] = img[px, :, :]`. -/
def shiftdown_core (im : Image) (px : Int) : Except PyErr Image :=
  let p := px.natAbs
  let im1 := rolldown_core im (p : Int)
  rowAssignLoop im1 ((List.range p).map fun (i : Nat) => (((i : Int)), ((p : Int))))

/-- Body of `shiftup`: `px = abs(px)`, roll down by -px, then
`for i in range(px): img[H - i - 1, :, :] = img[H - px, :, :]` where
H = img.shape[0]. -/
def shiftup_core (im : Image) (px : Int) : Except PyErr Image :=
  let p := px.natAbs
  let im1 := rolldown_core im (-(p : Int))
  rowAssignLoop im1
    ((List.range p).map fun (i : Nat) => ((im1.H : Int) - i - 1, (im1.H : Int) - p))

/-- Body of `shiftleft`: `px = abs(px)`, roll right by -px, then
`for i in range(px): img[:, W - i - 1, :] = img[:, W - px, :]` where
W = img.shape[1]. -/
def shiftleft_core (im : Image) (px : Int) : Except PyErr Image :=
  let p := px.natAbs
  let im1 := rollright_core im (-(p : Int))
  colAssignLoop im1
    ((List.range p).map fun (i : Nat) => ((im1.W : Int) - i - 1, (im1.W : Int) - p))

/-- Body of `shiftright`: `px = abs(px)`, roll right by px, then
`for i in range(px): img[:, i, :] = img[:, px, :]`. -/
def shiftright_core (im : Image) (px : Int) : Except PyErr Image :=
  let p := px.natAbs
  let im1 := rollright_core im (p : Int)
  colAssignLoop im1 ((List.range p).map fun (i : Nat) => (((i : Int)), ((p : Int))))

/-! ### The public functions as written (each first calls `_force_RGB_array`,
so each inherits its TypeError) -/

/-- Public `rot90(img, ccw=False)`. -/
def rot90 (v : NpLike) (ccw : Bool := false) : Except PyErr Image := do
  let im ← force_RGB_array v
  pure (rot90_core im ccw)

/-- Public `flipv(img)`. -/
def flipv (v : NpLike) : Except PyErr Image := do
  let im ← force_RGB_array v
  pure (flipv_core im)

/-- Public `fliph(img)`. -/
def fliph (v : NpLike) : Except PyErr Image := do
  let im ← force_RGB_array v
  pure (fliph_core im)

/-- Public `rolldown(img, px)`. -/
def rolldown (v : NpLike) (px : Int) : Except PyErr Image := do
  let im ← force_RGB_array v
  pure (rolldown_core im px)

/-- Public `rollright(img, px)`. -/
def rollright (v : NpLike) (px : Int) : Except PyErr Image := do
  let im ← force_RGB_array v
  pure (rollright_core im px)

/-- Public `zoom(img, fac)` with a pair factor. -/
def zoom (v : NpLike) (p : ℚ × ℚ) : Except PyErr Image := do
  let im ← force_RGB_array v
  pure (zoom_core im p)

/-- Public `zoom(img, fac)` with a scalar factor (default 0.5). -/
def zoomS (v : NpLike) (f : ℚ := 1 / 2) : Except PyErr Image := do
  let im ← force_RGB_array v
  pure (zoomS_core im f)

/-- Public `crop(img, bounds)`. -/
def crop (v : NpLike) (bounds : (Int × Int) × (Int × Int)) : Except PyErr Image := do
  let im ← force_RGB_array v
  pure (crop_core im bounds)

/-- Public `noisy(img, amt)`, the uniform draw passed explicitly. -/
def noisy (v : NpLike) (noise : Nat → Nat → Nat → ℚ) (amt : ℚ) : Except PyErr Image := do
  let im ← force_RGB_array v
  pure (noisy_core im noise amt)

/-- Public `mirrorleft(img)` (value semantics; the in-place aspect is modelled
separately at the store level). -/
def mirrorleft (v : NpLike) : Except PyErr Image := do
  let im ← force_RGB_array v
  pure (mirrorleft_core im)

/-- Public `mirrorright(img)`. -/
def mirrorright (v : NpLike) : Except PyErr Image := do
  let im ← force_RGB_array v
  pure (mirrorright_core im)

/-- Public `mirrorup(img)`. -/
def mirrorup (v : NpLike) : Except PyErr Image := do
  let im ← force_RGB_array v
  pure (mirrorup_core im)

/-- Public `mirrordown(img)`. -/
def mirrordown (v : NpLike) : Except PyErr Image := do
  let im ← force_RGB_array v
  pure (mirrordown_core im)

/-- Public `shiftdown(img, px)` (its first array step, `rolldown`, performs the
normalization). -/
def shiftdown (v : NpLike) (px : Int) : Except PyErr Image := do
  let im ← force_RGB_array v
  shiftdown_core im px

/-- Public `shiftup(img, px)`. -/
def shiftup (v : NpLike) (px : Int) : Except PyErr Image := do
  let im ← force_RGB_array v
  shiftup_core im px

/-- Public `shiftleft(img, px)`. -/
def shiftleft (v : NpLike) (px : Int) : Except PyErr Image := do
  let im ← force_RGB_array v
  shiftleft_core im px

/-- Public `shiftright(img, px)`. -/
def shiftright (v : NpLike) (px : Int) : Except PyErr Image := do
  let im ← force_RGB_array v
  shiftright_core im px

/-! ### Heap-level model of the mirror family

The mirror functions assign into the array that `_force_RGB_array` returned;
when the caller passed an already rank-3 array the normalizer returns that very
object, so the writes land in the caller's array.  We model array objects as
references into a store. -/

/-- A heap of rank-3 array objects, addressed by reference. -/
abbrev Store := Nat → Image

/-- Overwrite the object at reference `r`. -/
def Store.set (s : Store) (r : Nat) (im : Image) : Store :=
  fun n => if n = r then im else s n

/-- An input object to a transform: a reference to a rank-3 array living in the
store, or a rank-2 array (whose dstack below allocates a fresh object, so its
identity never matters). -/
inductive NpObj where
  | ref (r : Nat)
  | gray (g : Gray)

/-- The rank dispatch of `_force_RGB_array` at the heap level (the code past the
isinstance guard): a rank-3 array object is returned unchanged — the same
object, not a copy — while a rank-2 input is dstacked into a fresh array
allocated at the unused reference `fresh`.  Returns the updated store and the
reference of the normalized array. -/
def force_RGB_st (s : Store) (fresh : Nat) : NpObj → Store × Nat
  | .ref r => (s, r)
  | .gray g => (s.set fresh (dstack g), fresh)

/-- Heap-level `mirrorleft`: normalize, then perform the in-place slice
assignment on the returned object, and return (store, reference of the returned
array). -/
def mirrorleft_st (s : Store) (fresh : Nat) (v : NpObj) : Store × Nat :=
  let p := force_RGB_st s fresh v
  (Store.set p.1 p.2 (mirrorleft_core (p.1 p.2)), p.2)

/-- Heap-level `mirrorright`. -/
def mirrorright_st (s : Store) (fresh : Nat) (v : NpObj) : Store × Nat :=
  let p := force_RGB_st s fresh v
  (Store.set p.1 p.2 (mirrorright_core (p.1 p.2)), p.2)

/-- Heap-level `mirrorup`. -/
def mirrorup_st (s : Store) (fresh : Nat) (v : NpObj) : Store × Nat :=
  let p := force_RGB_st s fresh v
  (Store.set p.1 p.2 (mirrorup_core (p.1 p.2)), p.2)

/-- Heap-level `mirrordown`. -/
def mirrordown_st (s : Store) (fresh : Nat) (v : NpObj) : Store × Nat :=
  let p := force_RGB_st s fresh v
  (Store.set p.1 p.2 (mirrordown_core (p.1 p.2)), p.2)

/-! ### Concrete arrays used to evaluate the development -/

/-- A 1 by 2 test image with column index as sample value (both channels of a
pixel equal). -/
def exIm12 : Image := ⟨1, 2, fun _ c _ => (c : ℚ)⟩

/-- A 3 by 1 test image with rows 10, 20, 30. -/
def exIm31 : Image :=
  ⟨3, 1, fun r _ _ => if r = 0 then 10 else if r = 1 then 20 else 30⟩

/-- A 1 by 3 test image with columns 10, 20, 30. -/
def exIm13 : Image :=
  ⟨1, 3, fun _ c _ => if c = 0 then 10 else if c = 1 then 20 else 30⟩

/-- A 1 by 1 test image. -/
def exIm11 : Image := ⟨1, 1, fun _ _ _ => 7⟩

/-- A 2 by 2 test image with distinct samples. -/
def exIm22 : Image := ⟨2, 2, fun r c ch => 100 * (r : ℚ) + 10 * (c : ℚ) + (ch : ℚ)⟩

/-- A 2 by 4 test image (even width) with distinct samples. -/
def exIm24 : Image := ⟨2, 4, fun r c ch => 100 * (r : ℚ) + 10 * (c : ℚ) + (ch : ℚ)⟩

/-- A 2 by 3 test image (odd width) with distinct samples. -/
def exIm23 : Image := ⟨2, 3, fun r c ch => 100 * (r : ℚ) + 10 * (c : ℚ) + (ch : ℚ)⟩

/-- The sample of a fallible transform result at one index, when the transform
returned an array. -/
def pixOf (e : Except PyErr Image) (r c ch : Nat) : Option ℚ :=
  e.toOption.map fun im => im.pix r c ch

/-- Whether a fallible transform returned an array (rather than raising). -/
def exceptOk (e : Except PyErr Image) : Bool :=
  match e with
  | .ok _ => true
  | .error _ => false

/-- The exception a fallible transform raised, if it raised one. -/
def errOf (e : Except PyErr Image) : Option PyErr :=
  match e with
  | .ok _ => none
  | .error pe => some pe

/-! ### Helper lemmas -/

/-- Rolling by `px` and then by `-px` lands every in-range row index back on
itself. -/
lemma emod_roll_cancel (H : Nat) (r : Nat) (hr : r < H) (px : Int) :
    ((((((r : Int) + px).emod (H : Int)).toNat : Int) - px).emod (H : Int)).toNat = r := by
  have hH0 : (H : Int) ≠ 0 := by omega
  have h1 : 0 ≤ ((r : Int) + px).emod (H : Int) := Int.emod_nonneg _ hH0
  rw [Int.toNat_of_nonneg h1]
  show (((((r : Int) + px) % (H : Int)) - px) % (H : Int)).toNat = r
  have h2 : ((((r : Int) + px) % (H : Int)) - px) % (H : Int)
      = ((r : Int) + px - px) % (H : Int) := by
    conv_rhs => rw [Int.sub_emod]
    rw [Int.sub_emod, Int.emod_emod_of_dvd _ dvd_rfl]
  rw [h2]
  have h3 : (r : Int) + px - px = (r : Int) := by ring
  rw [h3, Int.emod_eq_of_lt (by positivity) (by exact_mod_cast hr)]
  omega

/-- A full-extent slice returns the array unchanged. -/
lemma slice2_full (im : Image) :
    Image.eqv (slice2 im 0 (im.H : Int) 0 (im.W : Int)) im := by
  have h0H : sliceIdx im.H 0 = 0 := by simp [sliceIdx]
  have h0W : sliceIdx im.W 0 = 0 := by simp [sliceIdx]
  have hH : sliceIdx im.H (im.H : Int) = im.H := by simp [sliceIdx]
  have hW : sliceIdx im.W (im.W : Int) = im.W := by simp [sliceIdx]
  refine ⟨?_, ?_, ?_⟩
  · simp [slice2, h0H, hH]
  · simp [slice2, h0W, hW]
  · intro r hr c hc ch hch
    simp [slice2, h0H, hH, h0W, hW]

/-- The zoom window at factor pair (1, 1) is the whole array. -/
lemma zoomWindow_one (im : Image) : Image.eqv (zoomWindow im (1, 1)) im := by
  have e1 : (im.H : ℚ) / 2 - (im.H : ℚ) * ((1 : ℚ) / 2) = 0 := by ring
  have e2 : (im.H : ℚ) / 2 + (im.H : ℚ) * ((1 : ℚ) / 2) = (im.H : ℚ) := by ring
  have e3 : (im.W : ℚ) / 2 - (im.W : ℚ) * ((1 : ℚ) / 2) = 0 := by ring
  have e4 : (im.W : ℚ) / 2 + (im.W : ℚ) * ((1 : ℚ) / 2) = (im.W : ℚ) := by ring
  have p0 : pyInt 0 = 0 := by simp [pyInt]
  have pH : pyInt (im.H : ℚ) = (im.H : Int) := by
    simp [pyInt, Nat.cast_nonneg]
  have pW : pyInt (im.W : ℚ) = (im.W : Int) := by
    simp [pyInt, Nat.cast_nonneg]
  unfold zoomWindow
  simp only [e1, e2, e3, e4, p0, pH, pW]
  exact slice2_full im

/-! ### Claims -/

/-- C1: for every input (any rank-2 or rank-3 array), every public transform
raises TypeError before doing any work: `_force_RGB_array` evaluates
`isinstance(img, np.array)`, and `np.array` is a function, not a type, so the
isinstance call itself fails; the normal return path of `_force_RGB_array`, and
hence of every public function that calls it, is unreachable for every input. -/
theorem C1_all_transforms_raise_typeError :
    ∀ (v : NpLike) (ccw : Bool) (px : Int) (p : ℚ × ℚ) (f : ℚ)
      (bounds : (Int × Int) × (Int × Int)) (noise : Nat → Nat → Nat → ℚ) (amt : ℚ),
    force_RGB_array v = .error .typeError ∧
    rot90 v ccw = .error .typeError ∧
    flipv v = .error .typeError ∧
    fliph v = .error .typeError ∧
    rolldown v px = .error .typeError ∧
    rollright v px = .error .typeError ∧
    zoom v p = .error .typeError ∧
    zoomS v f = .error .typeError ∧
    crop v bounds = .error .typeError ∧
    noisy v noise amt = .error .typeError ∧
    mirrorleft v = .error .typeError ∧
    mirrorright v = .error .typeError ∧
    mirrorup v = .error .typeError ∧
    mirrordown v = .error .typeError ∧
    shiftdown v px = .error .typeError ∧
    shiftup v px = .error .typeError ∧
    shiftleft v px = .error .typeError ∧
    shiftright v px = .error .typeError := by
  intro v ccw px p f bounds noise amt
  exact ⟨rfl, rfl, rfl, rfl, rfl, rfl, rfl, rfl, rfl, rfl, rfl, rfl, rfl, rfl,
    rfl, rfl, rfl, rfl⟩

/-- C5: for every image of normalized shape (H, W, 3), cropping with bounds
[[0, H], [0, W]] returns the full normalized image unchanged — same shape and
every pixel equal (the implementation reads the first pair of `bounds` as the
row range and the second as the column range, so these bounds select
rows 0:H and columns 0:W). -/
theorem C5_crop_full_bounds_identity :
    ∀ im : Image,
      Image.eqv (crop_core im ((0, (im.H : Int)), (0, (im.W : Int)))) im :=
  fun im => slice2_full im

/-- C6: for every image, zoom with factor 1.0 returns the full normalized
image: the same content as the normalization of the input at every pixel, and
the identical (H, W, 3) shape. -/
theorem C6_zoom_one_identity :
    ∀ v : NpLike,
      Image.eqv (zoomS_core (force_RGB_of_array v) 1) (force_RGB_of_array v) := by
  intro v
  have hfac : facNorm (1, 1) = (1, 1) := by norm_num [facNorm]
  show Image.eqv (zoomWindow (force_RGB_of_array v) (facNorm (1, 1))) _
  rw [hfac]
  exact zoomWindow_one (force_RGB_of_array v)

/-- C8: for every (normalized, rank-3) image and every integer px of any sign
and magnitude, rolling down by px and then by -px reproduces the image
exactly — the shape and every pixel equal. -/
theorem C8_rolldown_inverse :
    ∀ (im : Image) (px : Int),
      Image.eqv (rolldown_core (rolldown_core im px) (-px)) im := by
  intro im px
  refine ⟨rfl, rfl, ?_⟩
  intro r hr c hc ch hch
  simp only [rolldown_core, roll0, sub_neg_eq_add]
  congr 1
  exact emod_roll_cancel im.H r hr px

/-- C10: for every already rank-3 input array, each of the four mirror
transforms returns the very object it was given (the reference is unchanged)
and overwrites that object in the store with the mirrored result, so the
caller's input array is mutated in place; the final conjunct exhibits a
concrete array whose contents actually change. -/
theorem C10_mirrors_mutate_input :
    ∀ (s : Store) (fresh r : Nat),
    (mirrorleft_st s fresh (.ref r)).2 = r ∧
    (mirrorleft_st s fresh (.ref r)).1 r = mirrorleft_core (s r) ∧
    (mirrorright_st s fresh (.ref r)).2 = r ∧
    (mirrorright_st s fresh (.ref r)).1 r = mirrorright_core (s r) ∧
    (mirrorup_st s fresh (.ref r)).2 = r ∧
    (mirrorup_st s fresh (.ref r)).1 r = mirrorup_core (s r) ∧
    (mirrordown_st s fresh (.ref r)).2 = r ∧
    (mirrordown_st s fresh (.ref r)).1 r = mirrordown_core (s r) ∧
    ((mirrorleft_st (fun _ => exIm12) 5 (.ref 0)).1 0).pix 0 1 0 ≠ exIm12.pix 0 1 0 := by
  intro s fresh r
  refine ⟨rfl, ?_, rfl, ?_, rfl, ?_, rfl, ?_, by decide⟩ <;>
    simp [mirrorleft_st, mirrorright_st, mirrorup_st, mirrordown_st,
      force_RGB_st, Store.set]

/-- C2 (evaluation at the failing input): on the 3-by-1 image with rows
10, 20, 30, `shiftup` by 2 px produces rows 30, 10, 10 — the two vacated
bottom rows are filled with the original TOP row (value 10, the wrapped
content at post-roll index H - px), not with the original bottom row H - 1
(value 30) that the claim and the function's own docstring ("stretching the
bottom row of pixels") require; `shiftleft` behaves the same way on columns. -/
theorem C2_shiftup_fills_with_wrapped_top_row :
    pixOf (shiftup_core exIm31 2) 0 0 0 = some 30 ∧
    pixOf (shiftup_core exIm31 2) 1 0 0 = some 10 ∧
    pixOf (shiftup_core exIm31 2) 2 0 0 = some 10 ∧
    exIm31.pix 0 0 0 = 10 ∧
    exIm31.pix 2 0 0 = 30 ∧
    pixOf (shiftleft_core exIm13 2) 0 0 0 = some 30 ∧
    pixOf (shiftleft_core exIm13 2) 0 1 0 = some 10 ∧
    pixOf (shiftleft_core exIm13 2) 0 2 0 = some 10 ∧
    exIm13.pix 0 0 0 = 10 ∧
    exIm13.pix 0 2 0 = 30 ∧
    (10 : ℚ) ≠ 30 := by
  decide

/-- C3 (evaluation at the failing input): on the 1-by-2 image with pixel
values 0, 1, `rot90` with ccw left at its default False computes
np.rot90(img, 1), the counter-clockwise rotation (first row 1, second row 0),
while the claimed clockwise rotation is np.rot90(img, -1) (first row 0,
second row 1); with ccw=True the code produces exactly that clockwise
result.  The directions are inverted with respect to the claim and to the
function's own docstring. -/
theorem C3_rot90_direction_inverted :
    (rot90_core exIm12 false).H = 2 ∧
    (rot90_core exIm12 false).W = 1 ∧
    (rot90_core exIm12 false).pix 0 0 0 = 1 ∧
    (rot90_core exIm12 false).pix 1 0 0 = 0 ∧
    (npRot90 exIm12 (-1)).pix 0 0 0 = 0 ∧
    (npRot90 exIm12 (-1)).pix 1 0 0 = 1 ∧
    (rot90_core exIm12 true).pix 0 0 0 = 0 ∧
    (rot90_core exIm12 true).pix 1 0 0 = 1 ∧
    (npRot90 exIm12 1).pix 0 0 0 = 1 ∧
    (npRot90 exIm12 1).pix 1 0 0 = 0 ∧
    (1 : ℚ) ≠ 0 := by
  decide

/-- Modelled from the spec: the per-axis clamp policy for zoom factors — a
factor greater than 1 is clamped to 1, a factor less than or equal to 0 falls
back to 0.5, anything else is kept. -/
def axClamp (f : ℚ) : ℚ :=
  if 1 < f then 1 else if f ≤ 0 then 1 / 2 else f

/-- The source's chain of four ifs equals the per-axis clamp applied
independently to each component. -/
lemma facNorm_eq_axClamp (f g : ℚ) : facNorm (f, g) = (axClamp f, axClamp g) := by
  by_cases h1 : 1 < f
  · by_cases h2 : 1 < g
    · norm_num [facNorm, axClamp, h1, h2]
    · by_cases h2' : g ≤ 0
      · norm_num [facNorm, axClamp, h1, h2, h2']
      · norm_num [facNorm, axClamp, h1, h2, h2']
  · by_cases h1' : f ≤ 0
    · by_cases h2 : 1 < g
      · norm_num [facNorm, axClamp, h1, h1', h2]
      · by_cases h2' : g ≤ 0
        · norm_num [facNorm, axClamp, h1, h1', h2, h2']
        · norm_num [facNorm, axClamp, h1, h1', h2, h2']
    · by_cases h2 : 1 < g
      · norm_num [facNorm, axClamp, h1, h1', h2]
      · by_cases h2' : g ≤ 0
        · norm_num [facNorm, axClamp, h1, h1', h2, h2']
        · norm_num [facNorm, axClamp, h1, h1', h2, h2']

/-- C7: zoom factor normalization is applied independently per axis before the
window is computed (first conjunct: the source's if-chain equals the per-axis
clamp); for each axis a factor greater than 1 yields the same result as
factor 1 and a factor at most 0 the same result as factor 0.5, and in
particular the scalar calls zoom(img, 2.0) and zoom(img, 1.0) agree, as do
zoom(img, 0.0) and zoom(img, 0.5). -/
theorem C7_zoom_factor_clamped_per_axis :
    ∀ (im : Image) (f g : ℚ),
    zoom_core im (f, g) = zoomWindow im (axClamp f, axClamp g) ∧
    (1 < f → zoom_core im (f, g) = zoom_core im (1, g)) ∧
    (f ≤ 0 → zoom_core im (f, g) = zoom_core im (1 / 2, g)) ∧
    (1 < g → zoom_core im (f, g) = zoom_core im (f, 1)) ∧
    (g ≤ 0 → zoom_core im (f, g) = zoom_core im (f, 1 / 2)) ∧
    zoomS_core im 2 = zoomS_core im 1 ∧
    zoomS_core im 0 = zoomS_core im (1 / 2) := by
  intro im f g
  have key : ∀ a b : ℚ, zoom_core im (a, b) = zoomWindow im (axClamp a, axClamp b) := by
    intro a b
    unfold zoom_core
    rw [facNorm_eq_axClamp]
  refine ⟨key f g, ?_, ?_, ?_, ?_, ?_, ?_⟩
  · intro h
    rw [key, key]
    have : axClamp f = axClamp 1 := by norm_num [axClamp, h]
    rw [this]
  · intro h
    rw [key, key]
    have hnot : ¬ (1 : ℚ) < f := by linarith
    have : axClamp f = axClamp (1 / 2) := by norm_num [axClamp, h, hnot]
    rw [this]
  · intro h
    rw [key, key]
    have : axClamp g = axClamp 1 := by norm_num [axClamp, h]
    rw [this]
  · intro h
    rw [key, key]
    have hnot : ¬ (1 : ℚ) < g := by linarith
    have : axClamp g = axClamp (1 / 2) := by norm_num [axClamp, h, hnot]
    rw [this]
  · show zoom_core im (2, 2) = zoom_core im (1, 1)
    rw [key, key]
    norm_num [axClamp]
  · show zoom_core im (0, 0) = zoom_core im (1 / 2, 1 / 2)
    rw [key, key]
    norm_num [axClamp]

/-- Witness for C7: the clamp equalities hold at the concrete 2-by-4 image
with the claimed factor values 2, 1, 0 and 0.5. -/
theorem C7_witness :
    zoom_core exIm24 (2, 3 / 4) = zoom_core exIm24 (1, 3 / 4) ∧
    zoom_core exIm24 (0, 3 / 4) = zoom_core exIm24 (1 / 2, 3 / 4) ∧
    zoom_core exIm24 (3 / 4, 2) = zoom_core exIm24 (3 / 4, 1) ∧
    zoom_core exIm24 (3 / 4, 0) = zoom_core exIm24 (3 / 4, 1 / 2) :=
  ⟨(C7_zoom_factor_clamped_per_axis exIm24 2 (3 / 4)).2.1 (by decide),
   (C7_zoom_factor_clamped_per_axis exIm24 0 (3 / 4)).2.2.1 (by decide),
   (C7_zoom_factor_clamped_per_axis exIm24 (3 / 4) 2).2.2.2.1 (by decide),
   (C7_zoom_factor_clamped_per_axis exIm24 (3 / 4) 0).2.2.2.2.1 (by decide)⟩

/-- C9: for every image of even normalized width W, in the mirrorleft result
the right half (columns W/2 to W-1) equals the horizontally flipped left half
(column W/2 + j holds original column W/2 - 1 - j), and the image is
bilaterally symmetric; for odd W the center column W/2 lies in the overwritten
half (it receives the flipped-copy value). -/
theorem C9_mirrorleft_even_width_symmetric :
    ∀ im : Image,
    (Even im.W →
      (∀ r, r < im.H → ∀ j, j < im.W / 2 → ∀ ch, ch < 3 →
        (mirrorleft_core im).pix r (im.W / 2 + j) ch = im.pix r (im.W / 2 - 1 - j) ch) ∧
      (∀ r, r < im.H → ∀ c, c < im.W → ∀ ch, ch < 3 →
        (mirrorleft_core im).pix r c ch = (mirrorleft_core im).pix r (im.W - 1 - c) ch)) ∧
    (im.W % 2 = 1 → ∀ r, r < im.H → ∀ ch, ch < 3 →
      (mirrorleft_core im).pix r (im.W / 2) ch = (fliplr im).pix r (im.W / 2) ch) := by
  intro im
  constructor
  · intro heven
    obtain ⟨k, hk⟩ := heven
    constructor
    · intro r hr j hj ch hch
      have hcond : im.W / 2 ≤ im.W / 2 + j := Nat.le_add_right _ _
      simp only [mirrorleft_core, fliplr, if_pos hcond]
      congr 1
      omega
    · intro r hr c hc ch hch
      by_cases hcase : im.W / 2 ≤ c
      · have hcond2 : ¬ im.W / 2 ≤ im.W - 1 - c := by omega
        simp only [mirrorleft_core, fliplr, if_pos hcase, if_neg hcond2]
      · have hcond2 : im.W / 2 ≤ im.W - 1 - c := by omega
        simp only [mirrorleft_core, fliplr, if_neg hcase, if_pos hcond2]
        congr 1
        omega
  · intro hodd r hr ch hch
    simp only [mirrorleft_core, if_pos (le_refl (im.W / 2))]

/-- Witness for C9: the mirrored-half equality and the symmetry hold on the
concrete 2 by 4 image, and the center-column overwrite on the 2 by 3 image. -/
theorem C9_witness :
    (mirrorleft_core exIm24).pix 0 (2 + 0) 0 = exIm24.pix 0 (2 - 1 - 0) 0 ∧
    (mirrorleft_core exIm24).pix 1 3 2 = (mirrorleft_core exIm24).pix 1 (4 - 1 - 3) 2 ∧
    (mirrorleft_core exIm23).pix 0 1 0 = (fliplr exIm23).pix 0 1 0 :=
  ⟨((C9_mirrorleft_even_width_symmetric exIm24).1 (by decide)).1 0 (by decide) 0
      (by decide) 0 (by decide),
   ((C9_mirrorleft_even_width_symmetric exIm24).1 (by decide)).2 1 (by decide) 3
      (by decide) 2 (by decide),
   (C9_mirrorleft_even_width_symmetric exIm23).2 (by decide) 0 (by decide) 0 (by decide)⟩

/-- npIndex fails on an index at or beyond the axis length. -/
lemma npIndex_err_high (n : Nat) (i : Int) (h : (n : Int) ≤ i) :
    npIndex n i = .error .indexError := by
  unfold npIndex
  rw [if_neg (by omega), if_neg (by omega)]

/-- npIndex fails on an index below minus the axis length. -/
lemma npIndex_err_low (n : Nat) (i : Int) (h : i < -(n : Int)) :
    npIndex n i = .error .indexError := by
  unfold npIndex
  rw [if_neg (by omega), if_neg (by omega)]

/-- npIndex succeeds on any index in [-n, n). -/
lemma npIndex_ok (n : Nat) (i : Int) (h1 : -(n : Int) ≤ i) (h2 : i < (n : Int)) :
    ∃ j, npIndex n i = .ok j := by
  unfold npIndex
  by_cases h : 0 ≤ i ∧ i < (n : Int)
  · exact ⟨i.toNat, by rw [if_pos h]⟩
  · exact ⟨(i + n).toNat, by rw [if_neg h, if_pos ⟨h1, by omega⟩]⟩

/-- A row assignment whose source index is unresolvable propagates the
IndexError, whatever comes after it. -/
lemma rowAssignLoop_first_err (im : Image) (d s : Int) (rest : List (Int × Int))
    (h : npIndex im.H s = .error .indexError) :
    rowAssignLoop im ((d, s) :: rest) = .error .indexError := by
  show (setRowFrom im d s >>= fun x => rowAssignLoop x rest) = _
  have hsr : setRowFrom im d s = .error .indexError := by
    unfold setRowFrom
    rw [h]
    rfl
  rw [hsr]
  rfl

/-- Column version of the previous lemma. -/
lemma colAssignLoop_first_err (im : Image) (d s : Int) (rest : List (Int × Int))
    (h : npIndex im.W s = .error .indexError) :
    colAssignLoop im ((d, s) :: rest) = .error .indexError := by
  show (setColFrom im d s >>= fun x => colAssignLoop x rest) = _
  have hsr : setColFrom im d s = .error .indexError := by
    unfold setColFrom
    rw [h]
    rfl
  rw [hsr]
  rfl

/-- A row assignment with both indices in [-H, H) succeeds and preserves the
shape. -/
lemma setRowFrom_ok (im : Image) (d s : Int)
    (hd1 : -(im.H : Int) ≤ d) (hd2 : d < (im.H : Int))
    (hs1 : -(im.H : Int) ≤ s) (hs2 : s < (im.H : Int)) :
    ∃ im', setRowFrom im d s = .ok im' ∧ im'.H = im.H ∧ im'.W = im.W := by
  obtain ⟨j, hj⟩ := npIndex_ok im.H s hs1 hs2
  obtain ⟨k, hk⟩ := npIndex_ok im.H d hd1 hd2
  refine ⟨⟨im.H, im.W, fun r c ch => if r = k then im.pix j c ch else im.pix r c ch⟩,
    ?_, rfl, rfl⟩
  unfold setRowFrom
  simp only [hj, hk]
  rfl

/-- Column version of the previous lemma. -/
lemma setColFrom_ok (im : Image) (d s : Int)
    (hd1 : -(im.W : Int) ≤ d) (hd2 : d < (im.W : Int))
    (hs1 : -(im.W : Int) ≤ s) (hs2 : s < (im.W : Int)) :
    ∃ im', setColFrom im d s = .ok im' ∧ im'.H = im.H ∧ im'.W = im.W := by
  obtain ⟨j, hj⟩ := npIndex_ok im.W s hs1 hs2
  obtain ⟨k, hk⟩ := npIndex_ok im.W d hd1 hd2
  refine ⟨⟨im.H, im.W, fun r c ch => if c = k then im.pix r j ch else im.pix r c ch⟩,
    ?_, rfl, rfl⟩
  unfold setColFrom
  simp only [hj, hk]
  rfl

/-- A sequence of row assignments all of whose indices lie in [-H, H) returns
an array. -/
lemma rowAssignLoop_ok (L : List (Int × Int)) :
    ∀ im : Image,
    (∀ pr ∈ L, -(im.H : Int) ≤ pr.1 ∧ pr.1 < (im.H : Int) ∧
      -(im.H : Int) ≤ pr.2 ∧ pr.2 < (im.H : Int)) →
    exceptOk (rowAssignLoop im L) = true := by
  induction L with
  | nil => intro im _; rfl
  | cons hd tl ih =>
    intro im h
    obtain ⟨d, s⟩ := hd
    obtain ⟨hd1, hd2, hs1, hs2⟩ := h (d, s) (List.mem_cons_self _ _)
    obtain ⟨im', he, hH, hW⟩ := setRowFrom_ok im d s hd1 hd2 hs1 hs2
    have hstep : rowAssignLoop im ((d, s) :: tl) = rowAssignLoop im' tl := by
      show (setRowFrom im d s >>= fun x => rowAssignLoop x tl) = _
      rw [he]
      rfl
    rw [hstep]
    apply ih
    intro pr hpr
    rw [hH]
    exact h pr (List.mem_cons_of_mem _ hpr)

/-- Column version of the previous lemma. -/
lemma colAssignLoop_ok (L : List (Int × Int)) :
    ∀ im : Image,
    (∀ pr ∈ L, -(im.W : Int) ≤ pr.1 ∧ pr.1 < (im.W : Int) ∧
      -(im.W : Int) ≤ pr.2 ∧ pr.2 < (im.W : Int)) →
    exceptOk (colAssignLoop im L) = true := by
  induction L with
  | nil => intro im _; rfl
  | cons hd tl ih =>
    intro im h
    obtain ⟨d, s⟩ := hd
    obtain ⟨hd1, hd2, hs1, hs2⟩ := h (d, s) (List.mem_cons_self _ _)
    obtain ⟨im', he, hH, hW⟩ := setColFrom_ok im d s hd1 hd2 hs1 hs2
    have hstep : colAssignLoop im ((d, s) :: tl) = colAssignLoop im' tl := by
      show (setColFrom im d s >>= fun x => colAssignLoop x tl) = _
      rw [he]
      rfl
    rw [hstep]
    apply ih
    intro pr hpr
    rw [hW]
    exact h pr (List.mem_cons_of_mem _ hpr)

/-- C4 (counterexample): on a 1 by 1 image, shiftdown by 1 pixel does not
return an array — it raises IndexError, because the stretch-fill reads row
px = 1, which is out of bounds for the axis of size 1. -/
theorem C4_counterexample :
    errOf (shiftdown_core exIm11 1) = some PyErr.indexError ∧
    exceptOk (shiftdown_core exIm11 1) = false := by
  decide

/-- C4 (amended): a px at or beyond the image extent does NOT always yield an
array.  shiftdown raises IndexError whenever |px| is at least the height H
(the fill source row px is out of bounds), and shiftright likewise for |px| at
least the width W; shiftup and shiftleft still return an array for |px| up to
twice the extent (their fill indices resolve through negative wrap-around
indexing) and raise IndexError beyond that; below the extent all four return
an array. -/
theorem C4_amended_shift_extent_behavior :
    ∀ (im : Image) (px : Int),
    (0 < im.H → im.H ≤ px.natAbs → shiftdown_core im px = .error .indexError) ∧
    (0 < im.W → im.W ≤ px.natAbs → shiftright_core im px = .error .indexError) ∧
    (2 * im.H < px.natAbs → shiftup_core im px = .error .indexError) ∧
    (2 * im.W < px.natAbs → shiftleft_core im px = .error .indexError) ∧
    (px.natAbs < im.H → exceptOk (shiftdown_core im px) = true) ∧
    (px.natAbs < im.W → exceptOk (shiftright_core im px) = true) ∧
    (px.natAbs ≤ 2 * im.H → exceptOk (shiftup_core im px) = true) ∧
    (px.natAbs ≤ 2 * im.W → exceptOk (shiftleft_core im px) = true) := by
  intro im px
  refine ⟨?_, ?_, ?_, ?_, ?_, ?_, ?_, ?_⟩
  · intro hH hp
    simp only [shiftdown_core, rolldown_core, roll0]
    obtain ⟨k, hk⟩ : ∃ k, px.natAbs = k + 1 := ⟨px.natAbs - 1, by omega⟩
    rw [hk, List.range_succ_eq_map, List.map_cons]
    apply rowAssignLoop_first_err
    apply npIndex_err_high
    show (im.H : Int) ≤ ((k + 1 : Nat) : Int)
    omega
  · intro hW hp
    simp only [shiftright_core, rollright_core, roll1]
    obtain ⟨k, hk⟩ : ∃ k, px.natAbs = k + 1 := ⟨px.natAbs - 1, by omega⟩
    rw [hk, List.range_succ_eq_map, List.map_cons]
    apply colAssignLoop_first_err
    apply npIndex_err_high
    show (im.W : Int) ≤ ((k + 1 : Nat) : Int)
    omega
  · intro hp
    simp only [shiftup_core, rolldown_core, roll0]
    obtain ⟨k, hk⟩ : ∃ k, px.natAbs = k + 1 := ⟨px.natAbs - 1, by omega⟩
    rw [hk, List.range_succ_eq_map, List.map_cons]
    apply rowAssignLoop_first_err
    apply npIndex_err_low
    show (im.H : Int) - ((k + 1 : Nat) : Int) < -((im.H : Int))
    omega
  · intro hp
    simp only [shiftleft_core, rollright_core, roll1]
    obtain ⟨k, hk⟩ : ∃ k, px.natAbs = k + 1 := ⟨px.natAbs - 1, by omega⟩
    rw [hk, List.range_succ_eq_map, List.map_cons]
    apply colAssignLoop_first_err
    apply npIndex_err_low
    show (im.W : Int) - ((k + 1 : Nat) : Int) < -((im.W : Int))
    omega
  · intro hp
    simp only [shiftdown_core, rolldown_core, roll0]
    apply rowAssignLoop_ok
    intro pr hpr
    simp only [List.mem_map, List.mem_range] at hpr
    obtain ⟨i, hi, rfl⟩ := hpr
    dsimp only
    refine ⟨by omega, by omega, by omega, by omega⟩
  · intro hp
    simp only [shiftright_core, rollright_core, roll1]
    apply colAssignLoop_ok
    intro pr hpr
    simp only [List.mem_map, List.mem_range] at hpr
    obtain ⟨i, hi, rfl⟩ := hpr
    dsimp only
    refine ⟨by omega, by omega, by omega, by omega⟩
  · intro hp
    simp only [shiftup_core, rolldown_core, roll0]
    apply rowAssignLoop_ok
    intro pr hpr
    simp only [List.mem_map, List.mem_range] at hpr
    obtain ⟨i, hi, rfl⟩ := hpr
    dsimp only
    refine ⟨by omega, by omega, by omega, by omega⟩
  · intro hp
    simp only [shiftleft_core, rollright_core, roll1]
    apply colAssignLoop_ok
    intro pr hpr
    simp only [List.mem_map, List.mem_range] at hpr
    obtain ⟨i, hi, rfl⟩ := hpr
    dsimp only
    refine ⟨by omega, by omega, by omega, by omega⟩

/-- Witness for C4 (amended): on the concrete 2 by 2 image, shiftdown and
shiftright by 2 raise IndexError, while shiftup and shiftleft by 4 (twice the
extent) and shiftdown by 1 (below the extent) return arrays. -/
theorem C4_witness :
    shiftdown_core exIm22 2 = .error .indexError ∧
    shiftright_core exIm22 2 = .error .indexError ∧
    shiftup_core exIm22 5 = .error .indexError ∧
    shiftleft_core exIm22 5 = .error .indexError ∧
    exceptOk (shiftdown_core exIm22 1) = true ∧
    exceptOk (shiftright_core exIm22 1) = true ∧
    exceptOk (shiftup_core exIm22 4) = true ∧
    exceptOk (shiftleft_core exIm22 4) = true :=
  ⟨(C4_amended_shift_extent_behavior exIm22 2).1 (by decide) (by decide),
   (C4_amended_shift_extent_behavior exIm22 2).2.1 (by decide) (by decide),
   (C4_amended_shift_extent_behavior exIm22 5).2.2.1 (by decide),
   (C4_amended_shift_extent_behavior exIm22 5).2.2.2.1 (by decide),
   (C4_amended_shift_extent_behavior exIm22 1).2.2.2.2.1 (by decide),
   (C4_amended_shift_extent_behavior exIm22 1).2.2.2.2.2.1 (by decide),
   (C4_amended_shift_extent_behavior exIm22 4).2.2.2.2.2.2.1 (by decide),
   (C4_amended_shift_extent_behavior exIm22 4).2.2.2.2.2.2.2 (by decide)⟩

end Daug


